import Mathlib

/-!
Shallow embedding of the core of `src/gym_minigrid/minigrid.py`
(mini_behavior fork of MiniGrid): the grid data structure with
multi-occupancy cells, the encode/decode transform, the `process_vis`
visibility sweep, the dynamic action-space builder and the `step`
state machine.

Python `None` / single object / list-of-objects cell contents are
embedded as the inductive `Cell`.  Grids carry their cell contents as a
total function on coordinates; the Python code asserts in-bounds access,
and all in-bounds behaviour is modelled faithfully while out-of-bounds
reads simply return the function value (callers in the claims always
stay in bounds or carry bounds hypotheses).  Machine `uint8` arithmetic
of the numpy encoding is modelled with explicit `% 256`.
-/

namespace MiniBehavior

/-- Modelled from the spec: `WorldObj` is external to `src/` (it lives in
`objects.py`, which is not part of the source under verification).  The
spec (section 3) fixes its capability surface: a type name, the
`can_overlap` / `can_seebehind` capability bits, and an
`encode() -> (type_idx, color_idx, state)` triple.  We carry exactly
those fields. -/
structure WorldObj where
  type : String
  typeIdx : Nat
  colorIdx : Nat
  state : Nat
  can_overlap : Bool
  can_seebehind : Bool
deriving DecidableEq, Repr

/-- Modelled from the spec: the reserved index for the `unseen` marker
(`OBJECT_TO_IDX` lives outside `src/`).  `Grid.encode` leaves invisible
cells at the array's zero initialisation, and the spec says those zeros
are the reserved `unseen` marker, so the index is 0. -/
def unseenIdx : Nat := 0

/-- Modelled from the spec: the reserved index for `empty`
(`OBJECT_TO_IDX['empty']`, outside `src/`): a fixed constant shared by
encode and decode, distinct from `unseenIdx`. -/
def emptyIdx : Nat := 1

/-- Cell contents: Python `None`, a bare `WorldObj`, or a `list` of
`WorldObj`s.  The source distinguishes a single occupant from a
one-element list, so the embedding does too. -/
inductive Cell where
  | empty : Cell
  | one : WorldObj → Cell
  | many : List WorldObj → Cell
deriving DecidableEq, Repr

/-- The occupants of a cell, as a list (empty cell gives `[]`). -/
def occupantsOf : Cell → List WorldObj
  | .empty => []
  | .one o => [o]
  | .many os => os

/-- `Grid` from `minigrid.py`: a `width × height` array of cells.  The
backing store `self.grid` (a flat Python list indexed by
`j * width + i`) is embedded as a total function of the coordinates
`(i, j)`. -/
structure Grid where
  width : Nat
  height : Nat
  cells : Nat → Nat → Cell

/-- `Grid.remove(i, j, v)` from `minigrid.py` lines 72-83.  Faithful to
the source: a `None` cell is left alone (the `if cur_objs:` guard), a
bare-object cell is set to `None` (the source does not compare it with
`v`), a one-element list becomes `None`, and a longer list has the
first occurrence of `v` removed (`list.remove`). -/
def Grid.remove (g : Grid) (i j : Nat) (v : WorldObj) : Grid :=
  { g with
    cells := fun i' j' =>
      if i' = i ∧ j' = j then
        match g.cells i j with
        | .empty => .empty
        | .one _ => .empty
        | .many os => if os.length = 1 then .empty else .many (os.erase v)
      else g.cells i' j' }

/-- `Grid.rotate_left()` from `minigrid.py` lines 108-120.  The source
builds a fresh `Grid(height, width)` and executes
`grid.set(j, grid.height - 1 - i, self.get(i, j))` for every source
coordinate.  Each target cell of the fresh grid is written exactly once
starting from `None`, so `Grid.set`'s append behaviour reduces to plain
assignment; solving `(j, height - 1 - i) = (a, b)` gives the direct
formula used here.  Unwritten (out-of-range) cells stay `None`. -/
def Grid.rotate_left (g : Grid) : Grid :=
  { width := g.height
    height := g.width
    cells := fun a b =>
      if a < g.height ∧ b < g.width then g.cells (g.width - 1 - b) a
      else .empty }

/-- The encoded triple of a single occupant: `v.encode()` written into a
`uint8` numpy array, hence each channel reduced `% 256`. -/
def encObj (o : WorldObj) : Nat × Nat × Nat :=
  (o.typeIdx % 256, o.colorIdx % 256, o.state % 256)

/-- Channelwise `uint8` accumulation `np.add(array[i, j, :], obj.encode())`
of the multi-occupant branch of `Grid.encode`. -/
def addTriple (t : Nat × Nat × Nat) (o : WorldObj) : Nat × Nat × Nat :=
  ((t.1 + o.typeIdx) % 256, (t.2.1 + o.colorIdx) % 256, (t.2.2 + o.state) % 256)

/-- The encoding of one visible cell, following `Grid.encode`
(`minigrid.py` lines 247-274): an empty cell is `(empty_idx, 0, 0)`, a
single occupant contributes its own triple, and a list contributes the
elementwise `uint8` sum of the occupants' triples (starting from the
array's zero initialisation). -/
def encodeCell : Cell → Nat × Nat × Nat
  | .empty => (emptyIdx, 0, 0)
  | .one o => encObj o
  | .many os => os.foldl addTriple (0, 0, 0)

/-- `Grid.encode(vis_mask)` from `minigrid.py` lines 247-274.  The
result array starts as zeros; only in-range visible cells are filled,
so invisible (and out-of-range) entries stay `(0, 0, 0)` - the reserved
`unseen` marker. -/
def Grid.encode (g : Grid) (vis : Nat → Nat → Bool) : Nat → Nat → Nat × Nat × Nat :=
  fun i j =>
    if i < g.width ∧ j < g.height then
      if vis i j then encodeCell (g.cells i j) else (0, 0, 0)
    else (0, 0, 0)

/-- Grid equality as the source defines it (`Grid.__eq__`, lines 50-53):
`np.array_equal` of the two all-visible encodings, i.e. equal shapes and
equal entries at every in-range coordinate. -/
def encGridEq (g1 g2 : Grid) : Prop :=
  g1.width = g2.width ∧ g1.height = g2.height ∧
    ∀ i j, i < g1.width → j < g1.height →
      encodeCell (g1.cells i j) = encodeCell (g2.cells i j)

/-- Modelled from the spec: `WorldObj.decode(type_idx, color_idx, state)`
lives in `objects.py`, outside `src/`.  Per spec section 4.1 it is the
inverse mapping from a triple back to a constructed `WorldObj` (or none
for the reserved `empty` / `unseen` indices); the reconstructed object
re-encodes to the given triple.  Capability bits and the type name are
not observable through the encoding, so fixed defaults are used. -/
def decodeObj (t c s : Nat) : Option WorldObj :=
  if t = unseenIdx ∨ t = emptyIdx then none
  else some { type := "decoded", typeIdx := t, colorIdx := c, state := s,
              can_overlap := false, can_seebehind := true }

/-- `Grid.decode(array)` from `minigrid.py` lines 276-295: builds a
fresh `width × height` grid, placing `WorldObj.decode` of each entry
(each target cell written at most once from `None`, so `set` is plain
assignment), and recomputes the visibility mask from which entries are
the `unseen` marker. -/
def decodeGrid (w h : Nat) (arr : Nat → Nat → Nat × Nat × Nat) :
    Grid × (Nat → Nat → Bool) :=
  ({ width := w
     height := h
     cells := fun i j =>
       if i < w ∧ j < h then
         match decodeObj (arr i j).1 (arr i j).2.1 (arr i j).2.2 with
         | none => .empty
         | some o => .one o
       else .empty },
   fun i j =>
     if i < w ∧ j < h then decide ((arr i j).1 ≠ unseenIdx) else true)

/-! ## Visibility resolver (`Grid.process_vis`, lines 297-349) -/

/-- A visibility mask, `np.zeros(shape=(width, height), dtype=bool)`
embedded as a total boolean function of the coordinates. -/
def Mask := Nat → Nat → Bool

/-- Setting one mask entry to `True`. -/
def mset (m : Mask) (x y : Nat) : Mask :=
  fun a b => if a = x ∧ b = y then true else m a b

/-- Whether a cell halts (`break`s) a directional scan of `process_vis`,
as the source actually behaves.  For a bare object this is
`not cell.can_seebehind`.  For a list cell the source runs
`for obj in cell: if obj and not obj.can_seebehind: break` and then
executes an unconditional `break` at the loop's indentation level, so
the inner loop has no effect and every list cell halts the scan. -/
def cellBlocksVis : Cell → Bool
  | .empty => false
  | .one o => !o.can_seebehind
  | .many _ => true

/-- A second blocking predicate that follows the spec's words instead of
the source, for comparison: a heterogeneous occupant collection is
opaque if and only if at least one occupant has `can_seebehind` false
(spec section 4.2 tie-break). -/
def cellBlocksVisSpec : Cell → Bool
  | .empty => false
  | .one o => !o.can_seebehind
  | .many os => os.any (fun o => !o.can_seebehind)

/-- One step-bounded left-to-right pass over row `j`
(`for i in range(0, grid.width-1)` with `continue` / `break`), generic
in the blocking predicate `blk`.  The fuel argument counts the
remaining loop iterations; `i` is the current column.  A visible
non-blocking cell marks `(i+1, j)` and, when `j > 0`, also
`(i+1, j-1)` and `(i, j-1)`; a visible blocking cell ends the loop. -/
def passLRgo (blk : Cell → Bool) (g : Grid) (j : Nat) :
    Nat → Nat → Mask → Mask
  | 0, _, m => m
  | n + 1, i, m =>
    if m i j = false then passLRgo blk g j n (i + 1) m
    else if blk (g.cells i j) then m
    else
      passLRgo blk g j n (i + 1)
        (if 0 < j then mset (mset (mset m (i + 1) j) (i + 1) (j - 1)) i (j - 1)
         else mset m (i + 1) j)

/-- The full left-to-right pass over row `j`: `grid.width - 1`
iterations starting at column 0. -/
def passLRwith (blk : Cell → Bool) (g : Grid) (j : Nat) (m : Mask) : Mask :=
  passLRgo blk g j (g.width - 1) 0 m

/-- One step-bounded right-to-left pass over row `j`
(`for i in reversed(range(1, grid.width))`), generic in the blocking
predicate.  A visible non-blocking cell marks `(i-1, j)` and, when
`j > 0`, also `(i-1, j-1)` and `(i, j-1)`. -/
def passRLgo (blk : Cell → Bool) (g : Grid) (j : Nat) :
    Nat → Nat → Mask → Mask
  | 0, _, m => m
  | n + 1, i, m =>
    if m i j = false then passRLgo blk g j n (i - 1) m
    else if blk (g.cells i j) then m
    else
      passRLgo blk g j n (i - 1)
        (if 0 < j then mset (mset (mset m (i - 1) j) (i - 1) (j - 1)) i (j - 1)
         else mset m (i - 1) j)

/-- The full right-to-left pass over row `j`: `grid.width - 1`
iterations starting at column `grid.width - 1` and stopping after
column 1. -/
def passRLwith (blk : Cell → Bool) (g : Grid) (j : Nat) (m : Mask) : Mask :=
  passRLgo blk g j (g.width - 1) (g.width - 1) m

/-- The row loop `for j in reversed(range(0, grid.height))`: when called
with fuel `n + 1` it processes row `n` (left-to-right pass then
right-to-left pass) and recurses, so rows run from `height - 1` down
to 0. -/
def visRows (blk : Cell → Bool) (g : Grid) : Nat → Mask → Mask
  | 0, m => m
  | n + 1, m => visRows blk g n (passRLwith blk g n (passLRwith blk g n m))

/-- `Grid.process_vis(agent_pos)` generic in the blocking predicate:
start from an all-false mask with the viewer's cell set, run the row
sweep, then clear every in-range grid cell whose mask bit is false
(the resolver's side effect) and return the stripped grid with the
mask. -/
def processVisWith (blk : Cell → Bool) (g : Grid) (pos : Nat × Nat) :
    Grid × Mask :=
  let m0 : Mask := mset (fun _ _ => false) pos.1 pos.2
  let m := visRows blk g g.height m0
  ({ g with
     cells := fun i j =>
       if i < g.width ∧ j < g.height ∧ m i j = false then .empty
       else g.cells i j },
   m)

/-- `Grid.process_vis` exactly as the source behaves (every list cell
blocks the scan). -/
def processVis (g : Grid) (pos : Nat × Nat) : Grid × Mask :=
  processVisWith cellBlocksVis g pos

/-- The visibility sweep as the spec describes it (a list cell blocks
if and only if some occupant is opaque); used to compare the source's
behaviour against the spec's tie-break rule. -/
def processVisSpec (g : Grid) (pos : Nat × Nat) : Grid × Mask :=
  processVisWith cellBlocksVisSpec g pos

/-! ## Observation overlay (`MiniGridEnv.gen_obs_grid`, lines 919-950) -/

/-- A value stored in one slot of a viewport cell after the
carried-object overlay: either a bare `WorldObj`, or - because
`gen_obs_grid` passes the whole `self.agent.carrying` *list* as the
value of `grid.set` - an entire list of objects stored as a single
element. -/
inductive ObsEntry where
  | o : WorldObj → ObsEntry
  | ls : List WorldObj → ObsEntry
deriving DecidableEq, Repr

/-- Viewport cell contents after the overlay: `None`, one entry, or a
list of entries (a nested list when a carried list was appended to an
occupied cell). -/
inductive ObsCell where
  | empty : ObsCell
  | single : ObsEntry → ObsCell
  | multi : List ObsEntry → ObsCell
deriving DecidableEq, Repr

/-- Injection of ordinary grid cells into the overlay cell type. -/
def Cell.toObs : Cell → ObsCell
  | .empty => .empty
  | .one o => .single (.o o)
  | .many os => .multi (os.map .o)

/-- `Grid.set(i, j, v)` (lines 62-70) restricted to the one cell it
touches, over overlay values: a `None` write or a write into an empty
cell assigns directly; otherwise the value is *appended* to the
occupant collection (converting a single occupant into a two-element
list). -/
def obsSet (c : ObsCell) (v : Option ObsEntry) : ObsCell :=
  match v with
  | none => .empty
  | some e =>
    match c with
    | .empty => .single e
    | .single e0 => .multi [e0, e]
    | .multi es => .multi (es ++ [e])

/-- The carried-object overlay of `gen_obs_grid` (lines 940-948):
`grid.set(*agent_pos, self.agent.carrying)` when the carrying list is
non-empty, `grid.set(*agent_pos, None)` otherwise. -/
def overlayCarrying (c : ObsCell) (carrying : List WorldObj) : ObsCell :=
  if carrying.isEmpty then obsSet c none else obsSet c (some (.ls carrying))

/-- The tail of `gen_obs_grid` starting from the already sliced and
rotated viewport grid `g` (the slicing/rotation stage depends on
`Agent.get_view_exts`, which lives outside `src/`): run `process_vis`
from `(view_size // 2, view_size - 1)` unless `see_through_walls`, then
apply the carried-object overlay at `(grid.width // 2, grid.height - 1)`.
Returns the viewport cells (in overlay form) and the visibility mask. -/
def genObsGridCells (g : Grid) (viewSize : Nat) (seeThrough : Bool)
    (carrying : List WorldObj) : (Nat → Nat → ObsCell) × Mask :=
  let gm :=
    if seeThrough then (g, fun _ _ => true)
    else processVis g (viewSize / 2, viewSize - 1)
  let pos := (gm.1.width / 2, gm.1.height - 1)
  (fun i j =>
    if i = pos.1 ∧ j = pos.2 then
      overlayCarrying (Cell.toObs (gm.1.cells i j)) carrying
    else Cell.toObs (gm.1.cells i j),
   gm.2)

/-! ## Step state machine (`MiniGridEnv.step`, lines 792-913) -/

/-- An action fed to `step` in non-human mode: one of the three
locomotion actions or a dynamically enumerated
object-name / interaction-name pair. -/
inductive Act where
  | left : Act
  | right : Act
  | forward : Act
  | interact : String → String → Act

/-- The environment state the step function reads and writes: the grid
(cells as a total function over `Int` coordinates, since
`front_pos = cur_pos + dir_vec` can leave `Nat`), the agent's position
and direction, the step counter and its configured maximum, the
per-step action-completion flag, and an abstract component `σ` holding
the external object states that interactions mutate. -/
structure EnvState (σ : Type) where
  cells : Int → Int → Cell
  agentPos : Int × Int
  agentDir : Int
  stepCount : Nat
  maxSteps : Nat
  actionDone : Bool
  objSt : σ

/-- Modelled from the spec: `DIR_TO_VEC` / `Agent.front_pos` live
outside `src/`.  Spec section 3 fixes the convention
0 = east, 1 = south, 2 = west, 3 = north (y grows downward). -/
def dirVec (d : Int) : Int × Int :=
  if d = 0 then (1, 0)
  else if d = 1 then (0, 1)
  else if d = 2 then (-1, 0)
  else (0, -1)

/-- Modelled from the spec: `Agent.front_pos`, the cell directly ahead
of the agent. -/
def frontPos {σ : Type} (s : EnvState σ) : Int × Int :=
  (s.agentPos.1 + (dirVec s.agentDir).1, s.agentPos.2 + (dirVec s.agentDir).2)

/-- The scenario hooks and external object contract `step` consults:
`_reward`, `_end_conditions` (scenario-supplied), and the
`can` / `do` capability pair of `self.agent.actions[...]` applied to
the object named in an interaction action (the object classes live
outside `src/`; per spec section 4.5 an interaction performs its effect
on the object - embedded as a transformation of the grid occupancy and
the external object state, not of the agent fields or counters). -/
structure Hooks (σ : Type) where
  reward : EnvState σ → Int
  endCond : EnvState σ → Bool
  canDo : String → String → EnvState σ → Bool
  doEff : String → String → (Int → Int → Cell) × σ → (Int → Int → Cell) × σ

/-- Whether the forward move succeeds, exactly as the source's forward
branch decides it (lines 817-837): an empty cell or an overlappable
bare occupant passes; a list cell passes when `'door'` is among the
occupant types (the `# TODO: change door` special case) or when every
occupant has `can_overlap`. -/
def forwardPassable : Cell → Bool
  | .empty => true
  | .one o => o.can_overlap
  | .many os =>
    if os.any (fun o => o.type == "door") then true
    else os.all (fun o => o.can_overlap)

/-- The forward rule as claim C1 words it: the move succeeds when the
cell is empty or every occupant present is overlappable. -/
def claimPassable : Cell → Bool
  | .empty => true
  | .one o => o.can_overlap
  | .many os => os.all (fun o => o.can_overlap)

/-- `MiniGridEnv.step(action)` in non-human mode, returning the final
state, the returned reward and the returned done flag (the observation
regeneration `gen_obs` does not mutate the environment - it slices a
copy of the grid - and is omitted from the return value).  Faithful
points to note:
* `step_count` is incremented and `action_done` reset to `True` before
  any branch (lines 799-800);
* the forward branch's goal test assigns local `done` / `reward`
  (lines 838-840) and the interaction branch's max-steps test assigns
  local `done` (lines 907-908), but both locals are overwritten by the
  unconditional `reward = self._reward()` / `done = self._end_conditions()`
  at lines 910-911, so they are embedded as discarded bindings;
* a blocked forward move or a refused interaction only clears
  `action_done`. -/
def step {σ : Type} (hk : Hooks σ) (s : EnvState σ) (a : Act) :
    EnvState σ × Int × Bool :=
  let s1 : EnvState σ := { s with stepCount := s.stepCount + 1, actionDone := true }
  let fwdPos := frontPos s1
  let fwdCell := s1.cells fwdPos.1 fwdPos.2
  let s2 : EnvState σ :=
    match a with
    | .left =>
      let d := s1.agentDir - 1
      { s1 with agentDir := if d < 0 then d + 4 else d }
    | .right =>
      { s1 with agentDir := (s1.agentDir + 1) % 4 }
    | .forward =>
      match fwdCell with
      | .many os =>
        if os.any (fun o => o.type == "door") then { s1 with agentPos := fwdPos }
        else if os.all (fun o => o.can_overlap) then { s1 with agentPos := fwdPos }
        else { s1 with actionDone := false }
      | .empty =>
        { s1 with agentPos := fwdPos }
      | .one o =>
        let sMoved :=
          if o.can_overlap then { s1 with agentPos := fwdPos }
          else { s1 with actionDone := false }
        let _deadDone := o.type == "goal"
        let _deadReward := if o.type == "goal" then hk.reward sMoved else 0
        sMoved
    | .interact objName actName =>
      let sAfter :=
        if hk.canDo objName actName s1 then
          let p := hk.doEff objName actName (s1.cells, s1.objSt)
          { s1 with cells := p.1, objSt := p.2 }
        else { s1 with actionDone := false }
      let _deadDone := sAfter.stepCount ≥ sAfter.maxSteps
      sAfter
  let reward := hk.reward s2
  let done := hk.endCond s2
  (s2, reward, done)

/-! ## Action space builder (`MiniGridEnv.actions`, lines 447-463) -/

/-- Modelled from the spec: an object instance as the builder sees it -
its unique name and its `possible_action` capability predicate over
interaction names (`_ALL_ACTIONS` and the object classes live outside
`src/`; spec section 4.4 calls this the capability contract). -/
structure ObjInst where
  name : String
  possible : String → Bool

/-- The inner loops of the builder for one object: for every
interaction name the object supports, append the entry
`(obj.name ++ "/" ++ action, i)` and bump the counter. -/
def addObjActions (allActs : List String) (obj : ObjInst)
    (st : List (String × Nat) × Nat) : List (String × Nat) × Nat :=
  allActs.foldl
    (fun st a =>
      if obj.possible a then (st.1 ++ [(obj.name ++ "/" ++ a, st.2)], st.2 + 1)
      else st)
    st

/-- `MiniGridEnv.actions()`: start from the fixed locomotion entries
`left -> 0`, `right -> 1`, `forward -> 2`, then scan
`self.objs.values()` (a list of instance lists, in insertion order) and
every instance's supported interactions, assigning consecutive integers
from 3.  The resulting `IntEnum` payload is embedded as the association
list in insertion order. -/
def buildActions (objss : List (List ObjInst)) (allActs : List String) :
    List (String × Nat) :=
  (objss.foldl
    (fun st objs => objs.foldl (fun st o => addObjActions allActs o st) st)
    ([("left", 0), ("right", 1), ("forward", 2)], 3)).1

/-- The names of the object actions in enumeration order (used to state
what the builder produces). -/
def objActionNames (objss : List (List ObjInst)) (allActs : List String) :
    List String :=
  objss.flatten.flatMap
    (fun o => (allActs.filter o.possible).map (fun a => o.name ++ "/" ++ a))

/-- Pairing a list of names with consecutive integers starting at `i`. -/
def actionEntries : List String → Nat → List (String × Nat)
  | [], _ => []
  | n :: rest, i => (n, i) :: actionEntries rest (i + 1)

/-! ## Concrete objects, grids and states used in witnesses and
counterexamples -/

/-- A wall: not overlappable, not see-behind. -/
def wallO : WorldObj :=
  { type := "wall", typeIdx := 2, colorIdx := 5, state := 0,
    can_overlap := false, can_seebehind := false }

/-- A ball: overlappable in this model, transparent. -/
def ballO : WorldObj :=
  { type := "ball", typeIdx := 6, colorIdx := 1, state := 0,
    can_overlap := true, can_seebehind := true }

/-- A second transparent ball with a different colour. -/
def ballO2 : WorldObj :=
  { type := "ball", typeIdx := 6, colorIdx := 2, state := 0,
    can_overlap := true, can_seebehind := true }

/-- A goal marker: overlappable, transparent. -/
def goalO : WorldObj :=
  { type := "goal", typeIdx := 8, colorIdx := 1, state := 0,
    can_overlap := true, can_seebehind := true }

/-- A closed door: not overlappable, not see-behind. -/
def doorC : WorldObj :=
  { type := "door", typeIdx := 4, colorIdx := 0, state := 2,
    can_overlap := false, can_seebehind := false }

/-- A floor tile: overlappable, transparent. -/
def floorO : WorldObj :=
  { type := "floor", typeIdx := 3, colorIdx := 0, state := 0,
    can_overlap := true, can_seebehind := true }

/-- 3 × 3 grid with a single wall at (0, 1); the viewer stands at
(0, 2). -/
def g3 : Grid :=
  { width := 3, height := 3,
    cells := fun i j => if i = 0 ∧ j = 1 then .one wallO else .empty }

/-- 4 × 3 grid: an all-transparent two-occupant cell at (1, 1), walls at
(3, 1) and (1, 0); the viewer stands at (0, 2). -/
def g4 : Grid :=
  { width := 4, height := 3,
    cells := fun i j =>
      if i = 1 ∧ j = 1 then .many [ballO, ballO2]
      else if i = 3 ∧ j = 1 then .one wallO
      else if i = 1 ∧ j = 0 then .one wallO
      else .empty }

/-- Hooks with the base-class behaviour: `_end_conditions` returns
`False` (the `MiniGridEnv` default at lines 915-917), reward 0, no
interaction permitted. -/
def hkBase : Hooks Unit :=
  { reward := fun _ => 0, endCond := fun _ => false,
    canDo := fun _ _ _ => false, doEff := fun _ _ p => p }

/-- Hooks of a goal scenario: success reward 5, `_end_conditions` still
ignoring the step counter and the agent's cell. -/
def hkGoal : Hooks Unit :=
  { reward := fun _ => 5, endCond := fun _ => false,
    canDo := fun _ _ _ => false, doEff := fun _ _ p => p }

/-- State with a closed door stacked with a wall in the cell ahead of
the agent (agent at (1, 1) facing east, so the cell ahead is (2, 1)). -/
def csDoor : EnvState Unit :=
  { cells := fun i j => if i = 2 ∧ j = 1 then .many [doorC, wallO] else .empty,
    agentPos := (1, 1), agentDir := 0, stepCount := 0, maxSteps := 100,
    actionDone := true, objSt := () }

/-- State one step short of the configured maximum, with an empty grid. -/
def csMax : EnvState Unit :=
  { cells := fun _ _ => .empty,
    agentPos := (1, 1), agentDir := 0, stepCount := 0, maxSteps := 1,
    actionDone := true, objSt := () }

/-- State with a goal marker in the cell ahead of the agent. -/
def csGoal : EnvState Unit :=
  { cells := fun i j => if i = 2 ∧ j = 1 then .one goalO else .empty,
    agentPos := (1, 1), agentDir := 0, stepCount := 0, maxSteps := 100,
    actionDone := true, objSt := () }

/-- 3 × 3 viewport grid whose bottom-centre (viewer) cell (1, 2) holds a
floor tile the agent is standing on. -/
def gView : Grid :=
  { width := 3, height := 3,
    cells := fun i j => if i = 1 ∧ j = 2 then .one floorO else .empty }

/-- A mask with exactly (0, 1) set, used to exercise the pass-halting
facts on `g3`. -/
def mW3 : Mask := mset (fun _ _ => false) 0 1

/-- A mask with exactly (3, 1) set, used to exercise the pass-halting
facts on `g4`. -/
def mW4 : Mask := mset (fun _ _ => false) 3 1

/-! ## Helper lemmas about the visibility sweep -/

theorem mset_eq_true {m : Mask} {a b x y : Nat} (h : m x y = true) :
    mset m a b x y = true := by
  unfold mset
  split
  · rfl
  · exact h

theorem mset_same (m : Mask) (a b : Nat) : mset m a b a b = true := by
  unfold mset
  rw [if_pos ⟨rfl, rfl⟩]

theorem mset_of_ne {m : Mask} {a b x y : Nat} (h : ¬(x = a ∧ y = b)) :
    mset m a b x y = m x y := by
  unfold mset
  rw [if_neg h]

theorem passLRgo_mono (blk : Cell → Bool) (g : Grid) (j : Nat) :
    ∀ n i (m : Mask) x y, m x y = true → passLRgo blk g j n i m x y = true := by
  intro n
  induction n with
  | zero => intro _ _ x y h; exact h
  | succ n ih =>
    intro i m x y h
    simp only [passLRgo]
    by_cases hm : m i j = false
    · rw [if_pos hm]; exact ih _ _ _ _ h
    · rw [if_neg hm]
      by_cases hb : blk (g.cells i j) = true
      · rw [if_pos hb]; exact h
      · rw [if_neg hb]
        by_cases h0 : 0 < j
        · rw [if_pos h0]
          exact ih _ _ _ _ (mset_eq_true (mset_eq_true (mset_eq_true h)))
        · rw [if_neg h0]
          exact ih _ _ _ _ (mset_eq_true h)

theorem passRLgo_mono (blk : Cell → Bool) (g : Grid) (j : Nat) :
    ∀ n i (m : Mask) x y, m x y = true → passRLgo blk g j n i m x y = true := by
  intro n
  induction n with
  | zero => intro _ _ x y h; exact h
  | succ n ih =>
    intro i m x y h
    simp only [passRLgo]
    by_cases hm : m i j = false
    · rw [if_pos hm]; exact ih _ _ _ _ h
    · rw [if_neg hm]
      by_cases hb : blk (g.cells i j) = true
      · rw [if_pos hb]; exact h
      · rw [if_neg hb]
        by_cases h0 : 0 < j
        · rw [if_pos h0]
          exact ih _ _ _ _ (mset_eq_true (mset_eq_true (mset_eq_true h)))
        · rw [if_neg h0]
          exact ih _ _ _ _ (mset_eq_true h)

theorem visRows_mono (blk : Cell → Bool) (g : Grid) :
    ∀ n (m : Mask) x y, m x y = true → visRows blk g n m x y = true := by
  intro n
  induction n with
  | zero => intro _ x y h; exact h
  | succ n ih =>
    intro m x y h
    simp only [visRows]
    exact ih _ _ _
      (passRLgo_mono blk g n _ _ _ _ _ (passLRgo_mono blk g n _ _ _ _ _ h))

theorem passLRgo_halt (blk : Cell → Bool) (g : Grid) (j bi : Nat)
    (hblk : blk (g.cells bi j) = true) :
    ∀ n i (m : Mask), i ≤ bi → m bi j = true →
      ∀ x y, bi < x → passLRgo blk g j n i m x y = m x y := by
  intro n
  induction n with
  | zero => intro _ _ _ _ _ _ _; rfl
  | succ n ih =>
    intro i m hi hbi x y hx
    simp only [passLRgo]
    by_cases hm : m i j = false
    · rw [if_pos hm]
      have hne : i ≠ bi := by
        intro h
        rw [h, hbi] at hm
        exact Bool.true_eq_false.mp hm
      exact ih (i + 1) m (by omega) hbi x y hx
    · rw [if_neg hm]
      by_cases hb : blk (g.cells i j) = true
      · rw [if_pos hb]
      · rw [if_neg hb]
        have hne : i ≠ bi := fun h => hb (h ▸ hblk)
        have hlt : i < bi := by omega
        by_cases h0 : 0 < j
        · rw [if_pos h0]
          rw [ih (i + 1) _ (by omega)
              (mset_eq_true (mset_eq_true (mset_eq_true hbi))) x y hx]
          rw [mset_of_ne (by rintro ⟨h1, _⟩; omega),
              mset_of_ne (by rintro ⟨h1, _⟩; omega),
              mset_of_ne (by rintro ⟨h1, _⟩; omega)]
        · rw [if_neg h0]
          rw [ih (i + 1) _ (by omega) (mset_eq_true hbi) x y hx]
          rw [mset_of_ne (by rintro ⟨h1, _⟩; omega)]

theorem passRLgo_halt (blk : Cell → Bool) (g : Grid) (j bi : Nat)
    (hblk : blk (g.cells bi j) = true) :
    ∀ n i (m : Mask), bi ≤ i → m bi j = true →
      ∀ x y, x < bi → passRLgo blk g j n i m x y = m x y := by
  intro n
  induction n with
  | zero => intro _ _ _ _ _ _ _; rfl
  | succ n ih =>
    intro i m hi hbi x y hx
    simp only [passRLgo]
    by_cases hm : m i j = false
    · rw [if_pos hm]
      have hne : i ≠ bi := by
        intro h
        rw [h, hbi] at hm
        exact Bool.true_eq_false.mp hm
      exact ih (i - 1) m (by omega) hbi x y hx
    · rw [if_neg hm]
      by_cases hb : blk (g.cells i j) = true
      · rw [if_pos hb]
      · rw [if_neg hb]
        have hne : i ≠ bi := fun h => hb (h ▸ hblk)
        have hlt : bi < i := by omega
        by_cases h0 : 0 < j
        · rw [if_pos h0]
          rw [ih (i - 1) _ (by omega)
              (mset_eq_true (mset_eq_true (mset_eq_true hbi))) x y hx]
          rw [mset_of_ne (by rintro ⟨h1, _⟩; omega),
              mset_of_ne (by rintro ⟨h1, _⟩; omega),
              mset_of_ne (by rintro ⟨h1, _⟩; omega)]
        · rw [if_neg h0]
          rw [ih (i - 1) _ (by omega) (mset_eq_true hbi) x y hx]
          rw [mset_of_ne (by rintro ⟨h1, _⟩; omega)]

/-! ## Claim theorems -/

/-- C8 (amended): the visibility resolver always marks the viewer's own
cell visible; and each directional row pass of the sweep never
propagates marks past a blocking visible cell: if cell `(bi, j)` is
visible in the pass's input mask and halts the scan (per the source's
blocking behaviour `cellBlocksVis`), the left-to-right pass leaves
every mask entry at columns greater than `bi` unchanged, and the
right-to-left pass (for an in-range `bi`) leaves every entry at columns
less than `bi` unchanged.  (A cell beyond a blocker on one pass's line
can still be marked by the opposite pass or by diagonal propagation
from a row nearer the viewer - see the counterexample to the original
wording.) -/
theorem C8_viewer_visible_and_pass_halting :
    (∀ (g : Grid) (pos : Nat × Nat),
      (processVis g pos).2 pos.1 pos.2 = true)
    ∧ (∀ (g : Grid) (j : Nat) (m : Mask) (bi : Nat),
        m bi j = true → cellBlocksVis (g.cells bi j) = true →
        ∀ x y, bi < x → passLRwith cellBlocksVis g j m x y = m x y)
    ∧ (∀ (g : Grid) (j : Nat) (m : Mask) (bi : Nat),
        bi ≤ g.width - 1 → m bi j = true → cellBlocksVis (g.cells bi j) = true →
        ∀ x y, x < bi → passRLwith cellBlocksVis g j m x y = m x y) := by
  refine ⟨?_, ?_, ?_⟩
  · intro g pos
    show visRows cellBlocksVis g g.height
        (mset (fun _ _ => false) pos.1 pos.2) pos.1 pos.2 = true
    exact visRows_mono _ _ _ _ _ _ (mset_same _ _ _)
  · intro g j m bi hbi hblk x y hx
    exact passLRgo_halt cellBlocksVis g j bi hblk (g.width - 1) 0 m
      (Nat.zero_le bi) hbi x y hx
  · intro g j m bi hle hbi hblk x y hx
    exact passRLgo_halt cellBlocksVis g j bi hblk (g.width - 1) (g.width - 1) m
      hle hbi x y hx

/-- Witness for C8: the three parts applied at concrete inputs - the
viewer cell of `g3` at (0, 2); the left-to-right pass of row 1 of `g3`
frozen by the visible wall at (0, 1); the right-to-left pass of row 1
of `g4` frozen by the visible wall at (3, 1). -/
theorem C8_halting_witness :
    (processVis g3 (0, 2)).2 0 2 = true
    ∧ passLRwith cellBlocksVis g3 1 mW3 2 0 = mW3 2 0
    ∧ passRLwith cellBlocksVis g4 1 mW4 0 0 = mW4 0 0 :=
  ⟨C8_viewer_visible_and_pass_halting.1 g3 (0, 2),
   C8_viewer_visible_and_pass_halting.2.1 g3 1 mW3 0 (by decide) (by decide)
     2 0 (by decide),
   C8_viewer_visible_and_pass_halting.2.2 g4 1 mW4 3 (by decide) (by decide)
     (by decide) 0 0 (by decide)⟩

/-- Counterexample to C8 as stated: in `g3` (wall at (0, 1), viewer at
(0, 2)), the final mask marks cells (1, 1) and (2, 1) visible even
though they lie further along the left-to-right sweep of row 1 than
cell (0, 1), which is itself marked visible and holds an occupant with
`can_seebehind` false.  (They are revealed by diagonal propagation from
row 2 and by the opposite pass, which the sweep deliberately
performs.) -/
theorem C8_counterexample_diagonal :
    (processVis g3 (0, 2)).2 0 1 = true
    ∧ (occupantsOf (g3.cells 0 1)).any (fun o => !o.can_seebehind) = true
    ∧ (processVis g3 (0, 2)).2 1 1 = true
    ∧ (processVis g3 (0, 2)).2 2 1 = true := by
  decide

/-- C4: the sweep does not implement the any-occupant-opaque tie-break.
In the source, the `for obj in cell` opacity loop of `process_vis` is
followed by an unconditional `break` at the loop's own indentation
level, so every multi-occupant cell halts the scan even when all of its
occupants have `can_seebehind` true.  On `g4`, cell (1, 1) holds two
transparent occupants; under the spec's tie-break (`processVisSpec`)
cell (2, 0) behind it is visible, but under the source's behaviour it
is not. -/
theorem C4_multi_occupant_always_opaque :
    g4.cells 1 1 = Cell.many [ballO, ballO2]
    ∧ (occupantsOf (g4.cells 1 1)).all (fun o => o.can_seebehind) = true
    ∧ (processVis g4 (0, 2)).2 1 1 = true
    ∧ (processVis g4 (0, 2)).2 2 0 = false
    ∧ (processVisSpec g4 (0, 2)).2 2 0 = true := by
  refine ⟨rfl, by decide, by decide, by decide, by decide⟩

/-- C5: for an in-bounds cell and an occupant `v` actually present in
it, `remove(i, j, v)` removes exactly the first occurrence of `v` from
the cell's occupants, turns a cell whose only occupant was `v` into the
empty cell (never an empty collection), and leaves every other cell
untouched. -/
theorem C5_remove_spec (g : Grid) (i j : Nat) (v : WorldObj)
    (hi : i < g.width) (hj : j < g.height)
    (hv : v ∈ occupantsOf (g.cells i j)) :
    occupantsOf ((g.remove i j v).cells i j)
        = (occupantsOf (g.cells i j)).erase v
    ∧ (occupantsOf (g.cells i j) = [v] →
        (g.remove i j v).cells i j = Cell.empty)
    ∧ ∀ i' j', ¬(i' = i ∧ j' = j) →
        (g.remove i j v).cells i' j' = g.cells i' j' := by
  have hother : ∀ i' j', ¬(i' = i ∧ j' = j) →
      (g.remove i j v).cells i' j' = g.cells i' j' := by
    intro i' j' h
    simp only [Grid.remove]
    rw [if_neg h]
  rcases hc : g.cells i j with _ | o | os
  · rw [hc] at hv
    simp [occupantsOf] at hv
  · rw [hc] at hv
    have hvo : v = o := by simpa [occupantsOf] using hv
    subst hvo
    have hcell : (g.remove i j v).cells i j = Cell.empty := by
      simp [Grid.remove, hc]
    refine ⟨?_, fun _ => hcell, hother⟩
    rw [hcell]
    simp [occupantsOf]
  · rw [hc] at hv
    simp only [occupantsOf] at hv
    by_cases hlen : os.length = 1
    · obtain ⟨a, ha⟩ := List.length_eq_one.mp hlen
      subst ha
      have hva : v = a := by simpa using hv
      subst hva
      have hcell : (g.remove i j v).cells i j = Cell.empty := by
        simp [Grid.remove, hc]
      refine ⟨?_, fun _ => hcell, hother⟩
      rw [hcell]
      simp [occupantsOf]
    · have hcell : (g.remove i j v).cells i j = Cell.many (os.erase v) := by
        simp [Grid.remove, hc, hlen]
      refine ⟨?_, fun habs => ?_, hother⟩
      · rw [hcell]
        simp [occupantsOf]
      · simp only [occupantsOf] at habs
        rw [habs] at hlen
        simp at hlen

/-- Witness for C5: removing one of the two occupants of cell (1, 1) of
a concrete grid, and checking that another cell is untouched. -/
theorem C5_remove_witness :
    occupantsOf ((g4.remove 1 1 ballO).cells 1 1)
        = (occupantsOf (g4.cells 1 1)).erase ballO
    ∧ (g4.remove 1 1 ballO).cells 3 1 = g4.cells 3 1 :=
  ⟨(C5_remove_spec g4 1 1 ballO (by decide) (by decide) (by decide)).1,
   (C5_remove_spec g4 1 1 ballO (by decide) (by decide) (by decide)).2.2 3 1
     (by decide)⟩

/-- C6: rotating any grid left four times yields a grid that is
encoding-equal (the source's `Grid.__eq__`) to the original. -/
theorem C6_rotate_left_four (g : Grid) :
    encGridEq (g.rotate_left.rotate_left.rotate_left.rotate_left) g := by
  refine ⟨rfl, rfl, ?_⟩
  intro i j hi hj
  simp only [Grid.rotate_left] at hi hj ⊢
  rw [if_pos ⟨hi, hj⟩, if_pos ⟨by omega, by omega⟩,
      if_pos ⟨by omega, by omega⟩, if_pos ⟨by omega, by omega⟩]
  rw [show g.height - 1 - (g.height - 1 - j) = j from by omega,
      show g.width - 1 - (g.width - 1 - i) = i from by omega]

/-- Whether a cell survives the fully-visible encode/decode round trip:
it must be empty or hold a single occupant whose (uint8-truncated) type
index is neither of the reserved `unseen` / `empty` indices. -/
def cellRoundtrips : Cell → Prop
  | .empty => True
  | .one o => o.typeIdx % 256 ≠ unseenIdx ∧ o.typeIdx % 256 ≠ emptyIdx
  | .many _ => False

instance (c : Cell) : Decidable (cellRoundtrips c) :=
  match c with
  | .empty => .isTrue trivial
  | .one o => inferInstanceAs
      (Decidable (o.typeIdx % 256 ≠ unseenIdx ∧ o.typeIdx % 256 ≠ emptyIdx))
  | .many _ => .isFalse (fun h => h)

/-- C7: for a grid all of whose in-range cells are empty or hold a
single occupant (with a non-reserved type index), decoding the
fully-visible encoding yields a grid encoding-equal to the
original. -/
theorem C7_encode_decode_roundtrip (g : Grid)
    (h : ∀ i, i < g.width → ∀ j, j < g.height → cellRoundtrips (g.cells i j)) :
    encGridEq (decodeGrid g.width g.height (g.encode (fun _ _ => true))).1 g := by
  refine ⟨rfl, rfl, ?_⟩
  intro i j hi hj
  have hi' : i < g.width := hi
  have hj' : j < g.height := hj
  have hij := h i hi' j hj'
  simp only [decodeGrid, Grid.encode]
  rw [if_pos ⟨hi', hj'⟩, if_pos ⟨hi', hj'⟩, if_pos trivial]
  rcases hc : g.cells i j with _ | o | os
  · simp [encodeCell, decodeObj, emptyIdx, unseenIdx]
  · rw [hc] at hij
    obtain ⟨hn0, hn1⟩ := hij
    simp only [encodeCell, encObj, decodeObj, unseenIdx, emptyIdx] at hn0 hn1 ⊢
    rw [if_neg (by omega)]
    simp only [encodeCell, encObj]
    refine congrArg₂ Prod.mk (by omega) (congrArg₂ Prod.mk (by omega) (by omega))
  · rw [hc] at hij
    exact absurd hij (fun hf => hf)

/-- Witness grid for C7: a single ball at (1, 1) of a 3 × 3 grid. -/
def gRound : Grid :=
  { width := 3, height := 3,
    cells := fun i j => if i = 1 ∧ j = 1 then .one ballO else .empty }

/-- Witness for C7: the round trip at the concrete grid `gRound`. -/
theorem C7_roundtrip_witness :
    encGridEq (decodeGrid gRound.width gRound.height
      (gRound.encode (fun _ _ => true))).1 gRound :=
  C7_encode_decode_roundtrip gRound (by decide)

/-- C1 (amended): for every step taken with the forward action, the
agent's position becomes the cell ahead exactly when that cell passes
the source's rule `forwardPassable` - empty, or a single overlappable
occupant, or a multi-occupant collection that either contains a
door-typed occupant (the source's `'door' in obj_types` special case)
or consists entirely of overlappable occupants - and otherwise the
position is unchanged; the action-completion flag records exactly
whether the move succeeded. -/
theorem C1_forward_door_exception {σ : Type} (hk : Hooks σ) (s : EnvState σ) :
    (step hk s Act.forward).1.agentPos
        = (if forwardPassable (s.cells (frontPos s).1 (frontPos s).2)
           then frontPos s else s.agentPos)
    ∧ (step hk s Act.forward).1.actionDone
        = forwardPassable (s.cells (frontPos s).1 (frontPos s).2) := by
  simp only [step, frontPos]
  rcases s.cells (s.agentPos.1 + (dirVec s.agentDir).1)
      (s.agentPos.2 + (dirVec s.agentDir).2) with _ | o | os
  · simp [forwardPassable]
  · by_cases ho : o.can_overlap = true
    · simp [forwardPassable, ho]
    · simp [forwardPassable, ho]
  · by_cases hdoor : os.any (fun o => o.type == "door") = true
    · simp [forwardPassable, hdoor]
    · by_cases hall : os.all (fun o => o.can_overlap) = true
      · simp [forwardPassable, hdoor, hall]
      · simp [forwardPassable, hdoor, hall]

/-- Counterexample to C1 as stated: the cell ahead of the agent in
`csDoor` holds a closed door stacked with a wall - not empty, and not
all of its occupants are overlappable - yet the forward step moves the
agent into it and leaves the action-completion flag set, because the
source forces `can_overlap = True` for any multi-occupant cell whose
occupant types include `'door'`. -/
theorem C1_counterexample_door_in_list :
    claimPassable (csDoor.cells 2 1) = false
    ∧ csDoor.cells 2 1 ≠ Cell.empty
    ∧ (step hkBase csDoor Act.forward).1.agentPos = (2, 1)
    ∧ (step hkBase csDoor Act.forward).1.actionDone = true := by
  refine ⟨by decide, by decide, by decide, by decide⟩

/-- C2: the step counter is incremented by exactly one on every step and
in every branch; but the returned done flag does not become true when
the counter reaches the configured maximum: the `done = True`
assignment at line 908 (present only in the interaction branch) is
overwritten by the unconditional `done = self._end_conditions()` at
line 911, so with the base-class end-condition hook (which ignores the
counter) a step that reaches `max_steps` still returns done = false -
shown here for both the interaction branch and the forward branch. -/
theorem C2_step_counter_and_dead_max_done :
    (∀ (σ : Type) (hk : Hooks σ) (s : EnvState σ) (a : Act),
        (step hk s a).1.stepCount = s.stepCount + 1)
    ∧ ((step hkBase csMax (Act.interact "ball_0" "pickup")).1.stepCount
          = csMax.maxSteps
        ∧ (step hkBase csMax (Act.interact "ball_0" "pickup")).2.2 = false)
    ∧ ((step hkBase csMax Act.forward).1.stepCount = csMax.maxSteps
        ∧ (step hkBase csMax Act.forward).2.2 = false) := by
  refine ⟨?_, ⟨by decide, by decide⟩, by decide, by decide⟩
  intro σ hk s a
  cases a with
  | left => simp [step]
  | right => simp [step]
  | forward =>
    simp only [step, frontPos]
    rcases s.cells (s.agentPos.1 + (dirVec s.agentDir).1)
        (s.agentPos.2 + (dirVec s.agentDir).2) with _ | o | os
    · rfl
    · dsimp only
      split <;> rfl
    · dsimp only
      split
      · rfl
      · split <;> rfl
  | interact objName actName =>
    simp only [step]
    split <;> rfl

/-- C3: when the agent steps forward into a cell holding the goal
marker, the returned reward does equal the reward hook's value, but the
returned done flag is not true: the `done = True` / local reward
assignment of the goal branch (lines 839-840) is overwritten by lines
910-911, so with an end-condition hook that ignores the agent's cell
the goal-entry step returns done = false. -/
theorem C3_goal_done_overwritten :
    csGoal.cells 2 1 = Cell.one goalO
    ∧ goalO.type = "goal"
    ∧ (step hkGoal csGoal Act.forward).1.agentPos = (2, 1)
    ∧ (step hkGoal csGoal Act.forward).2.1 = 5
    ∧ (step hkGoal csGoal Act.forward).2.2 = false := by
  refine ⟨by decide, by decide, by decide, by decide, by decide⟩

/-! ## Helper lemmas about the action space builder -/

theorem actionEntries_append (xs ys : List String) :
    ∀ i, actionEntries (xs ++ ys) i
        = actionEntries xs i ++ actionEntries ys (i + xs.length) := by
  induction xs with
  | nil => intro i; simp [actionEntries]
  | cons x t ih =>
    intro i
    simp only [List.cons_append, actionEntries, List.append_eq, ih (i + 1),
      List.length_cons]
    rw [show i + (t.length + 1) = i + 1 + t.length from by omega]

theorem actionEntries_length :
    ∀ (xs : List String) (i : Nat), (actionEntries xs i).length = xs.length
  | [], _ => rfl
  | x :: xs, i => by
    simp [actionEntries, actionEntries_length xs (i + 1)]

theorem addObjActions_eq (obj : ObjInst) :
    ∀ (allActs : List String) (l : List (String × Nat)) (i : Nat),
      addObjActions allActs obj (l, i)
        = (l ++ actionEntries ((allActs.filter obj.possible).map
              (fun a => obj.name ++ "/" ++ a)) i,
           i + (allActs.filter obj.possible).length)
  | [], l, i => by simp [addObjActions, actionEntries]
  | a :: rest, l, i => by
    simp only [addObjActions, List.foldl_cons]
    by_cases hp : obj.possible a
    · rw [if_pos hp]
      have ih := addObjActions_eq obj rest (l ++ [(obj.name ++ "/" ++ a, i)]) (i + 1)
      simp only [addObjActions] at ih
      rw [ih]
      simp only [List.filter_cons, hp, if_pos, List.map_cons, actionEntries,
        List.append_assoc, List.singleton_append, List.length_cons]
      rw [show i + 1 + (rest.filter obj.possible).length
            = i + ((rest.filter obj.possible).length + 1) from by omega]
    · rw [if_neg hp]
      have ih := addObjActions_eq obj rest l i
      simp only [addObjActions] at ih
      rw [ih]
      simp [List.filter_cons, hp]

theorem foldObjs_eq (allActs : List String) :
    ∀ (objs : List ObjInst) (l : List (String × Nat)) (i : Nat),
      objs.foldl (fun st o => addObjActions allActs o st) (l, i)
        = (l ++ actionEntries (objs.flatMap (fun o =>
              (allActs.filter o.possible).map (fun a => o.name ++ "/" ++ a))) i,
           i + (objs.map (fun o => (allActs.filter o.possible).length)).sum)
  | [], l, i => by simp [actionEntries]
  | o :: rest, l, i => by
    simp only [List.foldl_cons, addObjActions_eq]
    rw [foldObjs_eq allActs rest _ _]
    simp only [List.flatMap_cons, actionEntries_append, List.length_map,
      List.append_assoc, List.map_cons, List.sum_cons]
    rw [show i + (allActs.filter o.possible).length
          + (rest.map (fun o => (allActs.filter o.possible).length)).sum
        = i + ((allActs.filter o.possible).length
          + (rest.map (fun o => (allActs.filter o.possible).length)).sum)
        from by omega]

theorem objNames_length (allActs : List String) (objs : List ObjInst) :
    (objs.flatMap (fun o => (allActs.filter o.possible).map
        (fun a => o.name ++ "/" ++ a))).length
      = (objs.map (fun o => (allActs.filter o.possible).length)).sum := by
  induction objs with
  | nil => rfl
  | cons o t ih => simp [List.flatMap_cons, ih]

theorem foldObjss_eq (allActs : List String) :
    ∀ (objss : List (List ObjInst)) (l : List (String × Nat)) (i : Nat),
      objss.foldl (fun st objs =>
          objs.foldl (fun st o => addObjActions allActs o st) st) (l, i)
        = (l ++ actionEntries (objss.flatten.flatMap (fun o =>
              (allActs.filter o.possible).map (fun a => o.name ++ "/" ++ a))) i,
           i + (objss.flatten.map
              (fun o => (allActs.filter o.possible).length)).sum)
  | [], l, i => by simp [actionEntries]
  | objs :: rest, l, i => by
    simp only [List.foldl_cons, foldObjs_eq]
    rw [foldObjss_eq allActs rest _ _]
    simp only [List.flatten_cons, List.flatMap_append, actionEntries_append,
      List.append_assoc, List.map_append, List.sum_append, Prod.mk.injEq]
    refine ⟨?_, by omega⟩
    rw [objNames_length]

/-- C9: the action-space builder produces the three locomotion actions
`left -> 0`, `right -> 1`, `forward -> 2` followed by one entry per
(object instance, supported interaction) pair in stable insertion
order with contiguous integers from 3; in particular the total number
of actions is `3 + the sum over object instances of the number of
interactions each supports`, and the locomotion lookups give 0, 1, 2. -/
theorem C9_action_space_builder (objss : List (List ObjInst))
    (allActs : List String) :
    buildActions objss allActs
      = [("left", 0), ("right", 1), ("forward", 2)]
          ++ actionEntries (objActionNames objss allActs) 3
    ∧ (buildActions objss allActs).length
        = 3 + (objss.flatten.map
            (fun o => (allActs.filter o.possible).length)).sum
    ∧ List.lookup "left" (buildActions objss allActs) = some 0
    ∧ List.lookup "right" (buildActions objss allActs) = some 1
    ∧ List.lookup "forward" (buildActions objss allActs) = some 2 := by
  have hmain : buildActions objss allActs
      = [("left", 0), ("right", 1), ("forward", 2)]
          ++ actionEntries (objActionNames objss allActs) 3 := by
    unfold buildActions objActionNames
    rw [foldObjss_eq]
  refine ⟨hmain, ?_, ?_, ?_, ?_⟩
  · rw [hmain]
    simp only [List.length_append, actionEntries_length, List.length_cons,
      List.length_nil, objActionNames]
    rw [objNames_length]
  · rw [hmain]; rfl
  · rw [hmain]; rfl
  · rw [hmain]; rfl

/-- C10: the carried-object overlay of `gen_obs_grid` does not
overwrite the bottom-centre viewport cell.  With the agent standing on
a floor tile (so the viewport cell (1, 2) of the 3 × 3 view is
occupied) and carrying a ball, `grid.set` *appends* the carried list to
the cell, producing the nested collection
`[floor, [ball]]` rather than the carried objects; only the
not-carrying case clears the cell to empty as the claim describes. -/
theorem C10_overlay_append_not_overwrite :
    (genObsGridCells gView 3 false [ballO]).1 1 2
        = ObsCell.multi [ObsEntry.o floorO, ObsEntry.ls [ballO]]
    ∧ (genObsGridCells gView 3 false [ballO]).1 1 2
        ≠ ObsCell.multi [ObsEntry.o ballO]
    ∧ (genObsGridCells gView 3 false []).1 1 2 = ObsCell.empty := by
  refine ⟨by decide, by decide, by decide⟩

end MiniBehavior
